import Mathlib

/-!
Punter: AMQP consumer and consumer pool

A shallow embedding of `consumer.go` and `pool.go`.

The broker client (`streadway/amqp`) is an external collaborator.  Every call the
code makes on it is recorded, with its arguments, in a trace of `Action`s, and
the result of every call is supplied by an `Outcomes` record, so that a theorem
quantified over `Outcomes` speaks about every way the broker can answer.
Within one `NewConsumer` call each broker call is made at most once, so one
answer per call is all the code can observe.

Go errors are represented by their text (`err.Error()`); `nil` is `none`.
Functions returning `(*T, error)` return a pair of options, exactly as in Go,
so that "a value together with an error" is expressible.
Logging calls (`log.Infof`) do not influence control flow or broker calls and
are not recorded.
-/

namespace Punter

/-! ## Data model -/

/-- Text of a non-nil Go `error`. -/
abbrev Error := String

/-- Handle of an `*amqp.Connection`. -/
structure Connection where
  id : Nat
  deriving DecidableEq, Repr

/-- Handle of an `*amqp.Channel`. -/
structure Channel where
  id : Nat
  deriving DecidableEq, Repr

/-- Handle of a `chan error` (the completion signal). -/
structure DoneChan where
  id : Nat
  deriving DecidableEq, Repr

/-- Handle of a `<-chan amqp.Delivery`. -/
structure Deliveries where
  id : Nat
  deriving DecidableEq, Repr

/-- The caller-supplied handler function value (`type MsgHander func(...)`). -/
structure MsgHander where
  id : Nat
  deriving DecidableEq, Repr

/-- An `amqp.Table` whose values are integers, as a key/value list with distinct keys. -/
abbrev Table := List (String × Int)

/-- Map assignment `t[k] = v`. -/
def Table.set (t : Table) (k : String) (v : Int) : Table :=
  if t.any (fun e => e.1 == k) then
    t.map (fun e => if e.1 == k then (k, v) else e)
  else
    t ++ [(k, v)]

/-- Map lookup `t[k]`. -/
def Table.get? (t : Table) (k : String) : Option Int :=
  t.lookup k

/-- The type `amqp.Queue` returned by a queue declaration. -/
structure Queue where
  Name : String
  Messages : Int
  Consumers : Int
  deriving DecidableEq, Repr

/-- The type `Config` of `consumer.go` (`MessageTTL` is an `int32`, `Prefetch` an `int`;
the code only compares them with zero). -/
structure Config where
  AmqpURI : String
  Exchange : String
  ExchangeType : String
  QueueName : String
  Key : String
  MessageTTL : Int
  Durable : Bool
  Prefetch : Int
  deriving DecidableEq, Repr

/-- The type `Consumer` of `consumer.go`.  A value of this type stands for a consumer
whose `conn` and `channel` fields have been assigned; `count` is never written and
keeps its zero value. -/
structure Consumer where
  conn : Connection
  channel : Channel
  tag : String
  done : DoneChan
  count : Int
  deriving DecidableEq, Repr

/-- The type `ConsumerPool` of `pool.go`. -/
structure ConsumerPool where
  consumers : List Consumer
  deriving DecidableEq, Repr

/-- One observable action: a call on the broker client, a goroutine launch, or a
receive on the completion signal.  Arguments are in the order of the Go call. -/
inductive Action where
  | dial (uri : String)
  | goWatchClose (conn : Connection)
  | openChannel (conn : Connection)
  | exchangeDeclare (ch : Channel) (name kind : String)
      (durable autoDelete internal noWait : Bool) (args : Option Table)
  | queueDeclare (ch : Channel) (name : String)
      (durable autoDelete exclusive noWait : Bool) (args : Table)
  | qos (ch : Channel) (prefetchCount prefetchSize : Int) (global : Bool)
  | queueBind (ch : Channel) (name key exchange : String) (noWait : Bool) (args : Table)
  | consume (ch : Channel) (queue consumer : String)
      (autoAck exclusive noLocal noWait : Bool) (args : Option Table)
  | goHandler (h : MsgHander) (deliveries : Deliveries) (done : DoneChan)
  | cancel (ch : Channel) (consumer : String) (noWait : Bool)
  | connClose (conn : Connection)
  | recvDone (done : DoneChan)
  deriving DecidableEq, Repr

/-- The kind of an action, forgetting its arguments. -/
inductive Step where
  | dial | watcher | channel | exchangeDeclare | queueDeclare | qos | bind | consume
  | handler | cancel | close | recv
  deriving DecidableEq, Repr

/-- Kind of an action. -/
def Action.step : Action → Step
  | .dial _ => .dial
  | .goWatchClose _ => .watcher
  | .openChannel _ => .channel
  | .exchangeDeclare _ _ _ _ _ _ _ _ => .exchangeDeclare
  | .queueDeclare _ _ _ _ _ _ _ => .queueDeclare
  | .qos _ _ _ _ => .qos
  | .queueBind _ _ _ _ _ _ => .bind
  | .consume _ _ _ _ _ _ _ _ => .consume
  | .goHandler _ _ _ => .handler
  | .cancel _ _ _ => .cancel
  | .connClose _ => .close
  | .recvDone _ => .recv

/-- What the environment answers to the calls of one `NewConsumer` invocation:
`done` is the channel `make(chan error)` yields, the other fields are the results of
`amqp.Dial`, `Connection.Channel`, `Channel.ExchangeDeclare`, `Channel.QueueDeclare`,
`Channel.Qos`, `Channel.QueueBind` and `Channel.Consume`. -/
structure Outcomes where
  done : DoneChan
  Dial : Except Error Connection
  Channel : Except Error Channel
  ExchangeDeclare : Option Error
  QueueDeclare : Except Error Queue
  Qos : Option Error
  QueueBind : Option Error
  Consume : Except Error Deliveries

/-- What the environment answers to the calls of one `Consumer.Shutdown` invocation:
the results of `Channel.Cancel` and `Connection.Close`, and the value received from
the completion signal. -/
structure ShutdownOutcomes where
  Cancel : Option Error
  Close : Option Error
  done : Option Error

/-! ## consumer.go -/

/-- The function `NewConsumer` of `consumer.go`: the trace of actions performed and
the returned pair `(*Consumer, error)`. -/
def NewConsumer (config : Config) (ctag : String) (msgHandler : MsgHander) (o : Outcomes) :
    List Action × Option Consumer × Option Error :=
  let t0 := [Action.dial config.AmqpURI]
  match o.Dial with
  | .error err => (t0, none, some ("Dial: " ++ err))
  | .ok conn =>
    let t1 := t0 ++ [Action.goWatchClose conn, Action.openChannel conn]
    match o.Channel with
    | .error err => (t1, none, some ("Channel: " ++ err))
    | .ok channel =>
      let t2 := t1 ++ [Action.exchangeDeclare channel config.Exchange config.ExchangeType
        true false false false none]
      match o.ExchangeDeclare with
      | some err => (t2, none, some ("Exchange Declare: " ++ err))
      | none =>
        let qargs : Table :=
          if config.MessageTTL > 0 then Table.set [] "x-message-ttl" config.MessageTTL else []
        let t3 := t2 ++ [Action.queueDeclare channel config.QueueName config.Durable
          false false false qargs]
        match o.QueueDeclare with
        | .error err => (t3, none, some ("Queue Declare: " ++ err))
        | .ok queue =>
          let afterQos : List Action × Option Error :=
            if config.Prefetch > 0 then
              (t3 ++ [Action.qos channel config.Prefetch 0 false], o.Qos)
            else (t3, none)
          match afterQos with
          | (t4, some err) => (t4, none, some ("Failed to set Qos prefetch! Got: " ++ err))
          | (t4, none) =>
            let args : Table := Table.set [] "x-expires" 30000
            let t5 := t4 ++ [Action.queueBind channel queue.Name config.Key config.Exchange
              false args]
            match o.QueueBind with
            | some err => (t5, none, some ("Queue Bind: " ++ err))
            | none =>
              let t6 := t5 ++ [Action.consume channel queue.Name ctag
                false false false false none]
              match o.Consume with
              | .error err => (t6, none, some ("Queue Consume: " ++ err))
              | .ok deliveries =>
                (t6 ++ [Action.goHandler msgHandler deliveries o.done],
                  some { conn := conn, channel := channel, tag := ctag, done := o.done,
                         count := 0 },
                  none)

/-- The method `Consumer.Shutdown` of `consumer.go`: the trace of actions performed and
the returned `error`. -/
def Consumer.Shutdown (c : Consumer) (o : ShutdownOutcomes) : List Action × Option Error :=
  let t0 := [Action.cancel c.channel c.tag true]
  match o.Cancel with
  | some err => (t0, some ("Consumer cancel failed: " ++ err))
  | none =>
    let t1 := t0 ++ [Action.connClose c.conn]
    match o.Close with
    | some err => (t1, some ("AMQP connection close error: " ++ err))
    | none => (t1 ++ [Action.recvDone c.done], o.done)

/-! ## Observations on traces and outcomes -/

/-- The error of a call returning `(value, error)`. -/
def errOf {α : Type} : Except Error α → Option Error
  | .error err => some err
  | .ok _ => none

/-- The setup steps of `NewConsumer` with the error each one returned, in program order,
under the label `NewConsumer` wraps its error with.  The QoS call is made only when
`config.Prefetch > 0`. -/
def stepErrors (config : Config) (o : Outcomes) : List (String × Option Error) :=
  [("Dial: ", errOf o.Dial),
   ("Channel: ", errOf o.Channel),
   ("Exchange Declare: ", o.ExchangeDeclare),
   ("Queue Declare: ", errOf o.QueueDeclare),
   ("Failed to set Qos prefetch! Got: ", if config.Prefetch > 0 then o.Qos else none),
   ("Queue Bind: ", o.QueueBind),
   ("Queue Consume: ", errOf o.Consume)]

/-- The label of the first failing step followed by the text of its error. -/
def firstFailure (config : Config) (o : Outcomes) : Option Error :=
  (stepErrors config o).findSome? (fun e => e.2.map (fun text => e.1 ++ text))

/-- Dial, channel open, exchange declare, queue declare, the QoS call (when made), bind
and consume all succeed. -/
def AllSucceed (config : Config) (o : Outcomes) : Prop :=
  errOf o.Dial = none ∧ errOf o.Channel = none ∧ o.ExchangeDeclare = none ∧
  errOf o.QueueDeclare = none ∧ (config.Prefetch > 0 → o.Qos = none) ∧
  o.QueueBind = none ∧ errOf o.Consume = none

/-- The kinds of the actions of a trace, in the order performed. -/
def performedSteps (trace : List Action) : List Step :=
  trace.map Action.step

/-- The setup sequence as the specification's overview lists it: dial, open channel,
declare exchange, declare queue, set QoS (only when `config.Prefetch > 0`), bind, start
consuming, launch handler. -/
def setupPlan (config : Config) : List Step :=
  [Step.dial, Step.channel, Step.exchangeDeclare, Step.queueDeclare] ++
  (if config.Prefetch > 0 then [Step.qos] else []) ++
  [Step.bind, Step.consume, Step.handler]

/-- The setup sequence of `consumer.go`, with the launch of the close watcher between the
dial and the channel request: dial, launch watcher, open channel, declare exchange,
declare queue, set QoS (only when `config.Prefetch > 0`), bind, start consuming, launch
handler. -/
def setupPlanWithWatcher (config : Config) : List Step :=
  [Step.dial, Step.watcher, Step.channel, Step.exchangeDeclare, Step.queueDeclare] ++
  (if config.Prefetch > 0 then [Step.qos] else []) ++
  [Step.bind, Step.consume, Step.handler]

/-- Whether the environment makes the call of a step fail (launching a goroutine
cannot fail). -/
def Outcomes.fails (o : Outcomes) : Step → Bool
  | .dial => (errOf o.Dial).isSome
  | .channel => (errOf o.Channel).isSome
  | .exchangeDeclare => o.ExchangeDeclare.isSome
  | .queueDeclare => (errOf o.QueueDeclare).isSome
  | .qos => o.Qos.isSome
  | .bind => o.QueueBind.isSome
  | .consume => (errOf o.Consume).isSome
  | _ => false

/-- The argument tables of the queue declarations of a trace. -/
def queueDeclareArgs (trace : List Action) : List Table :=
  trace.filterMap (fun a =>
    match a with
    | .queueDeclare _ _ _ _ _ _ args => some args
    | _ => none)

/-- The QoS calls of a trace: prefetch count, prefetch size, global. -/
def qosCalls (trace : List Action) : List (Int × Int × Bool) :=
  trace.filterMap (fun a =>
    match a with
    | .qos _ count size global => some (count, size, global)
    | _ => none)

/-- The arguments the specification prescribes for the four topology and subscription
calls; `o` supplies the queue the declaration returned. -/
def ArgsAsSpecified (config : Config) (ctag : String) (o : Outcomes) : Action → Prop
  | .exchangeDeclare _ name kind durable autoDelete internal noWait _ =>
    name = config.Exchange ∧ kind = config.ExchangeType ∧ durable = true ∧
    autoDelete = false ∧ internal = false ∧ noWait = false
  | .queueDeclare _ name durable autoDelete exclusive _ _ =>
    name = config.QueueName ∧ durable = config.Durable ∧ autoDelete = false ∧
    exclusive = false
  | .queueBind _ name key exchange _ args =>
    (∃ queue, o.QueueDeclare = .ok queue ∧ name = queue.Name) ∧ key = config.Key ∧
    exchange = config.Exchange ∧ args = [("x-expires", 30000)]
  | .consume _ queueName consumer autoAck exclusive noLocal _ _ =>
    (∃ queue, o.QueueDeclare = .ok queue ∧ queueName = queue.Name) ∧ consumer = ctag ∧
    autoAck = false ∧ exclusive = false ∧ noLocal = false
  | _ => True

/-! ## The traces along the paths of `NewConsumer` -/

/-- Trace up to the channel request. -/
def traceChannel (config : Config) (conn : Connection) : List Action :=
  [Action.dial config.AmqpURI, Action.goWatchClose conn, Action.openChannel conn]

/-- Trace up to the queue declaration. -/
def traceQueueDeclare (config : Config) (conn : Connection) (channel : Channel) : List Action :=
  traceChannel config conn ++
  [Action.exchangeDeclare channel config.Exchange config.ExchangeType true false false false none,
   Action.queueDeclare channel config.QueueName config.Durable false false false
    (if config.MessageTTL > 0 then [("x-message-ttl", config.MessageTTL)] else [])]

/-- Trace up to the QoS call, when it is made. -/
def traceQos (config : Config) (conn : Connection) (channel : Channel) : List Action :=
  traceQueueDeclare config conn channel ++
  (if config.Prefetch > 0 then [Action.qos channel config.Prefetch 0 false] else [])

/-- Trace up to the start of consumption. -/
def traceConsume (config : Config) (ctag : String) (conn : Connection) (channel : Channel)
    (queue : Queue) : List Action :=
  traceQos config conn channel ++
  [Action.queueBind channel queue.Name config.Key config.Exchange false [("x-expires", 30000)],
   Action.consume channel queue.Name ctag false false false false none]

/-! ## A fragment of Go's `fmt.Sprintf`

`pool.go` builds each consumer tag with `fmt.Sprintf(consumerNamePrefix+"-consumer0%d", i)`:
the caller's text is part of the format string.  `fmt` belongs to the Go standard library;
the fragment below follows its documented behaviour for one `int` operand and the
directives `%%`, `%d` and `%T` without flags, width, precision or argument index. -/

/-- Scanner of the `fmt` fragment over the characters of the format.  `used` tells whether
the single operand `a` has been consumed.  Literal text is copied; `%%` writes a percent
sign and consumes nothing; `%d` writes the operand in decimal and `%T` writes its type
`int`, or `%!d(MISSING)` / `%!T(MISSING)` when the operand is already consumed; a lone
`%` at the end writes `%!(NOVERB)`; an operand left unconsumed at the end is reported as
`%!(EXTRA int=a)`.  Any other directive is outside the fragment: `none`. -/
def Sprintf.scan (a : Int) : List Char → Bool → Option (List Char)
  | [], used => some (if used then [] else "%!(EXTRA int=".data ++ (toString a).data ++ ")".data)
  | c :: rest, used =>
    if c ≠ '%' then (Sprintf.scan a rest used).map (fun out => c :: out)
    else
      match rest with
      | [] => some ("%!(NOVERB)".data ++
          (if used then [] else "%!(EXTRA int=".data ++ (toString a).data ++ ")".data))
      | v :: rest' =>
        if v = '%' then (Sprintf.scan a rest' used).map (fun out => '%' :: out)
        else if v = 'd' then
          if used then (Sprintf.scan a rest' used).map (fun out => "%!d(MISSING)".data ++ out)
          else (Sprintf.scan a rest' true).map (fun out => (toString a).data ++ out)
        else if v = 'T' then
          if used then (Sprintf.scan a rest' used).map (fun out => "%!T(MISSING)".data ++ out)
          else (Sprintf.scan a rest' true).map (fun out => "int".data ++ out)
        else none

/-- The `fmt.Sprintf(format, a)` fragment for one `int` operand; `none` when the format
uses a directive outside the fragment. -/
def Sprintf (format : String) (a : Int) : Option String :=
  (Sprintf.scan a format.data false).map String.mk

/-- A total formatter agrees with Go's `fmt.Sprintf` on the modelled fragment. -/
def FormatsLikeGo (sprintf : String → Int → String) : Prop :=
  ∀ format a out, Sprintf format a = some out → sprintf format a = out

/-- A total formatter: the fragment, and the empty string outside it. -/
def sprintfTotal (format : String) (a : Int) : String :=
  (Sprintf format a).getD ""

/-- Value of a string of decimal digits, used to read a rendered index back. -/
def decimalValue (digits : List Char) : Nat :=
  digits.foldl (fun acc c => 10 * acc + (c.toNat - 48)) 0

/-! ## pool.go -/

/-- The tag `NewConsumerPool` computes for index `i`:
`fmt.Sprintf(consumerNamePrefix+"-consumer0%d", i)`. -/
def consumerTag (sprintf : String → Int → String) (consumerNamePrefix : String) (i : Nat) :
    String :=
  sprintf (consumerNamePrefix ++ "-consumer0%d") (i : Int)

/-- The loop of `NewConsumerPool`, with `n` iterations left, loop variable `i`, the
consumers appended so far and the trace so far.  `env i` answers the calls of the
`NewConsumer` invocation of iteration `i`. -/
def NewConsumerPool.loop (sprintf : String → Int → String) (consumerNamePrefix : String)
    (punterConfig : Config) (msgHandler : MsgHander) (env : Nat → Outcomes) :
    Nat → Nat → List Consumer → List Action → List Action × Option ConsumerPool × Option Error
  | 0, _, consumers, trace => (trace, some { consumers := consumers }, none)
  | n + 1, i, consumers, trace =>
    match NewConsumer punterConfig (consumerTag sprintf consumerNamePrefix i) msgHandler (env i) with
    | (t, _, some err) => (trace ++ t, none, some err)
    | (t, some consumer, none) =>
      NewConsumerPool.loop sprintf consumerNamePrefix punterConfig msgHandler env n (i + 1)
        (consumers ++ [consumer]) (trace ++ t)
    | (t, none, none) =>
      -- `NewConsumer` never returns a nil consumer with a nil error (`NewConsumer_some_or_error`)
      (trace ++ t, none, none)

/-- The function `NewConsumerPool` of `pool.go`: `for i := 0; i < numWorkers; i++` runs
`numWorkers` iterations (none when `numWorkers` is negative). -/
def NewConsumerPool (sprintf : String → Int → String) (numWorkers : Int)
    (consumerNamePrefix : String) (punterConfig : Config) (msgHandler : MsgHander)
    (env : Nat → Outcomes) : List Action × Option ConsumerPool × Option Error :=
  NewConsumerPool.loop sprintf consumerNamePrefix punterConfig msgHandler env
    numWorkers.toNat 0 [] []

/-- One iteration of the loop of `ConsumerPool.Shutdown`: the index and consumer the
`range` yields, what the call `consumer.Shutdown()` did and returned. -/
structure ShutdownCall where
  n : Nat
  consumer : Consumer
  trace : List Action
  err : Option Error

/-- The loop of `ConsumerPool.Shutdown` from index `n` on; `env n` answers the calls of
the `Shutdown` of the consumer at index `n`.  The error is only logged. -/
def ConsumerPool.Shutdown.loop (env : Nat → ShutdownOutcomes) :
    Nat → List Consumer → List ShutdownCall
  | _, [] => []
  | n, consumer :: rest =>
    let r := consumer.Shutdown (env n)
    { n := n, consumer := consumer, trace := r.1, err := r.2 } ::
      ConsumerPool.Shutdown.loop env (n + 1) rest

/-- The `Shutdown` calls the method `ConsumerPool.Shutdown` of `pool.go` makes, in order. -/
def ConsumerPool.Shutdown.calls (pool : ConsumerPool) (env : Nat → ShutdownOutcomes) :
    List ShutdownCall :=
  ConsumerPool.Shutdown.loop env 0 pool.consumers

/-- The method `ConsumerPool.Shutdown` of `pool.go`: the trace of actions performed (it
returns nothing). -/
def ConsumerPool.Shutdown (pool : ConsumerPool) (env : Nat → ShutdownOutcomes) : List Action :=
  (ConsumerPool.Shutdown.calls pool env).flatMap (fun call => call.trace)

/-! ## Sample values -/

/-- A configuration with `Prefetch = 10`, `MessageTTL = 0`, `Durable = true`. -/
def sampleConfig : Config :=
  { AmqpURI := "amqp://localhost", Exchange := "ex", ExchangeType := "direct",
    QueueName := "q", Key := "k", MessageTTL := 0, Durable := true, Prefetch := 10 }

/-- A configuration with a message TTL and no prefetch. -/
def ttlConfig : Config :=
  { AmqpURI := "amqp://localhost", Exchange := "ex", ExchangeType := "topic",
    QueueName := "q", Key := "k", MessageTTL := 5000, Durable := false, Prefetch := 0 }

/-- Every broker call succeeds; the broker names the queue `q`. -/
def okOutcomes : Outcomes :=
  { done := ⟨7⟩, Dial := .ok ⟨1⟩, Channel := .ok ⟨2⟩, ExchangeDeclare := none,
    QueueDeclare := .ok { Name := "q", Messages := 0, Consumers := 0 }, Qos := none,
    QueueBind := none, Consume := .ok ⟨3⟩ }

/-- The dial fails. -/
def dialFails : Outcomes :=
  { okOutcomes with Dial := .error "connection refused" }

/-- A handler. -/
def sampleHandler : MsgHander := ⟨0⟩

/-- Answers for a request of three consumers where the dial of index 2 fails. -/
def failAtTwo (i : Nat) : Outcomes :=
  if i = 2 then dialFails else okOutcomes

/-- A consumer as `NewConsumer` returns it under `okOutcomes`. -/
def sampleConsumer (tag : String) : Consumer :=
  { conn := ⟨1⟩, channel := ⟨2⟩, tag := tag, done := ⟨7⟩, count := 0 }

/-! ## The paths of `NewConsumer` -/

/-- Case analysis of `NewConsumer`: the eight ways it can return, each with the answers of
the environment that select it, the trace and the returned pair. -/
theorem NewConsumer_paths (config : Config) (ctag : String) (msgHandler : MsgHander)
    (o : Outcomes) :
    (∃ err, o.Dial = .error err ∧
      NewConsumer config ctag msgHandler o =
        ([Action.dial config.AmqpURI], none, some ("Dial: " ++ err))) ∨
    (∃ conn err, o.Dial = .ok conn ∧ o.Channel = .error err ∧
      NewConsumer config ctag msgHandler o =
        (traceChannel config conn, none, some ("Channel: " ++ err))) ∨
    (∃ conn channel err, o.Dial = .ok conn ∧ o.Channel = .ok channel ∧
      o.ExchangeDeclare = some err ∧
      NewConsumer config ctag msgHandler o =
        ((traceQueueDeclare config conn channel).dropLast, none,
          some ("Exchange Declare: " ++ err))) ∨
    (∃ conn channel err, o.Dial = .ok conn ∧ o.Channel = .ok channel ∧
      o.ExchangeDeclare = none ∧ o.QueueDeclare = .error err ∧
      NewConsumer config ctag msgHandler o =
        (traceQueueDeclare config conn channel, none, some ("Queue Declare: " ++ err))) ∨
    (∃ conn channel queue err, o.Dial = .ok conn ∧ o.Channel = .ok channel ∧
      o.ExchangeDeclare = none ∧ o.QueueDeclare = .ok queue ∧
      config.Prefetch > 0 ∧ o.Qos = some err ∧
      NewConsumer config ctag msgHandler o =
        (traceQos config conn channel, none,
          some ("Failed to set Qos prefetch! Got: " ++ err))) ∨
    (∃ conn channel queue err, o.Dial = .ok conn ∧ o.Channel = .ok channel ∧
      o.ExchangeDeclare = none ∧ o.QueueDeclare = .ok queue ∧
      (config.Prefetch > 0 → o.Qos = none) ∧ o.QueueBind = some err ∧
      NewConsumer config ctag msgHandler o =
        ((traceConsume config ctag conn channel queue).dropLast, none,
          some ("Queue Bind: " ++ err))) ∨
    (∃ conn channel queue err, o.Dial = .ok conn ∧ o.Channel = .ok channel ∧
      o.ExchangeDeclare = none ∧ o.QueueDeclare = .ok queue ∧
      (config.Prefetch > 0 → o.Qos = none) ∧ o.QueueBind = none ∧ o.Consume = .error err ∧
      NewConsumer config ctag msgHandler o =
        (traceConsume config ctag conn channel queue, none,
          some ("Queue Consume: " ++ err))) ∨
    (∃ conn channel queue deliveries, o.Dial = .ok conn ∧ o.Channel = .ok channel ∧
      o.ExchangeDeclare = none ∧ o.QueueDeclare = .ok queue ∧
      (config.Prefetch > 0 → o.Qos = none) ∧ o.QueueBind = none ∧
      o.Consume = .ok deliveries ∧
      NewConsumer config ctag msgHandler o =
        (traceConsume config ctag conn channel queue ++
          [Action.goHandler msgHandler deliveries o.done],
         some { conn := conn, channel := channel, tag := ctag, done := o.done, count := 0 },
         none)) := by
  obtain ⟨dn, d, c, e, q, qs, b, cs⟩ := o
  cases d with
  | error err => simp [NewConsumer]
  | ok conn =>
  cases c with
  | error err => simp [NewConsumer, traceChannel]
  | ok channel =>
  cases e with
  | some err => simp [NewConsumer, traceChannel, traceQueueDeclare, List.dropLast]
  | none =>
  cases q with
  | error err => simp [NewConsumer, traceChannel, traceQueueDeclare, Table.set]
  | ok queue =>
  by_cases hp : config.Prefetch > 0
  · cases qs with
    | some err => simp [NewConsumer, traceChannel, traceQueueDeclare, traceQos, Table.set, hp]
    | none =>
    cases b with
    | some err =>
      simp [NewConsumer, traceChannel, traceQueueDeclare, traceQos, traceConsume, Table.set, hp,
        List.dropLast]
    | none =>
    cases cs with
    | error err =>
      simp [NewConsumer, traceChannel, traceQueueDeclare, traceQos, traceConsume, Table.set, hp]
    | ok deliveries =>
      simp [NewConsumer, traceChannel, traceQueueDeclare, traceQos, traceConsume, Table.set, hp]
  · cases b with
    | some err =>
      simp [NewConsumer, traceChannel, traceQueueDeclare, traceQos, traceConsume, Table.set, hp,
        List.dropLast]
    | none =>
    cases cs with
    | error err =>
      simp [NewConsumer, traceChannel, traceQueueDeclare, traceQos, traceConsume, Table.set, hp]
    | ok deliveries =>
      simp [NewConsumer, traceChannel, traceQueueDeclare, traceQos, traceConsume, Table.set, hp]

/-! ## Auxiliary facts about `NewConsumer` -/

/-- A nil error comes with a consumer carrying the tag, an error comes with a nil
consumer; the trace holds no shutdown action and exactly one dial. -/
theorem NewConsumer_some_or_error (config : Config) (ctag : String) (msgHandler : MsgHander)
    (o : Outcomes) :
    ((NewConsumer config ctag msgHandler o).2.2 = none →
      ∃ c, (NewConsumer config ctag msgHandler o).2 = (some c, none) ∧ c.tag = ctag) ∧
    ((NewConsumer config ctag msgHandler o).2.2 ≠ none →
      (NewConsumer config ctag msgHandler o).2.1 = none) ∧
    (∀ a ∈ (NewConsumer config ctag msgHandler o).1,
      a.step ≠ Step.cancel ∧ a.step ≠ Step.close ∧ a.step ≠ Step.recv) ∧
    ((NewConsumer config ctag msgHandler o).1.map Action.step).count Step.dial = 1 := by
  rcases NewConsumer_paths config ctag msgHandler o with
    ⟨err, hd, h⟩ | ⟨conn, err, hd, hc, h⟩ | ⟨conn, ch, err, hd, hc, he, h⟩ |
    ⟨conn, ch, err, hd, hc, he, hq, h⟩ | ⟨conn, ch, q, err, hd, hc, he, hq, hp, hqs, h⟩ |
    ⟨conn, ch, q, err, hd, hc, he, hq, hqs, hb, h⟩ |
    ⟨conn, ch, q, err, hd, hc, he, hq, hqs, hb, hcs, h⟩ |
    ⟨conn, ch, q, dl, hd, hc, he, hq, hqs, hb, hcs, h⟩ <;>
  rw [h] <;>
  by_cases hpre : config.Prefetch > 0 <;>
  simp only [traceChannel, traceQueueDeclare, traceQos, traceConsume, hpre, if_true, if_false,
    List.cons_append, List.nil_append, List.append_nil, List.dropLast,
    List.map_cons, List.map_nil, List.forall_mem_cons, Action.step] <;>
  simp

/-- Every call in the trace of `NewConsumer` carries the specified arguments. -/
theorem NewConsumer_args_aux (config : Config) (ctag : String) (msgHandler : MsgHander)
    (o : Outcomes) :
    ∀ a ∈ (NewConsumer config ctag msgHandler o).1, ArgsAsSpecified config ctag o a := by
  rcases NewConsumer_paths config ctag msgHandler o with
    ⟨err, hd, h⟩ | ⟨conn, err, hd, hc, h⟩ | ⟨conn, ch, err, hd, hc, he, h⟩ |
    ⟨conn, ch, err, hd, hc, he, hq, h⟩ | ⟨conn, ch, q, err, hd, hc, he, hq, hp, hqs, h⟩ |
    ⟨conn, ch, q, err, hd, hc, he, hq, hqs, hb, h⟩ |
    ⟨conn, ch, q, err, hd, hc, he, hq, hqs, hb, hcs, h⟩ |
    ⟨conn, ch, q, dl, hd, hc, he, hq, hqs, hb, hcs, h⟩ <;>
  rw [h] <;>
  by_cases hpre : config.Prefetch > 0 <;>
  simp only [traceChannel, traceQueueDeclare, traceQos, traceConsume, hpre, if_true, if_false,
    List.cons_append, List.nil_append, List.append_nil, List.dropLast,
    List.forall_mem_cons] <;>
  simp only [ArgsAsSpecified] <;>
  simp [*]

/-- When every step succeeds each topology and subscription call is made exactly once. -/
theorem NewConsumer_count_aux (config : Config) (ctag : String) (msgHandler : MsgHander)
    (o : Outcomes) (hall : AllSucceed config o) :
    ((NewConsumer config ctag msgHandler o).1.map Action.step).count Step.exchangeDeclare = 1 ∧
    ((NewConsumer config ctag msgHandler o).1.map Action.step).count Step.queueDeclare = 1 ∧
    ((NewConsumer config ctag msgHandler o).1.map Action.step).count Step.bind = 1 ∧
    ((NewConsumer config ctag msgHandler o).1.map Action.step).count Step.consume = 1 := by
  rcases NewConsumer_paths config ctag msgHandler o with
    ⟨err, hd, h⟩ | ⟨conn, err, hd, hc, h⟩ | ⟨conn, ch, err, hd, hc, he, h⟩ |
    ⟨conn, ch, err, hd, hc, he, hq, h⟩ | ⟨conn, ch, q, err, hd, hc, he, hq, hp, hqs, h⟩ |
    ⟨conn, ch, q, err, hd, hc, he, hq, hqs, hb, h⟩ |
    ⟨conn, ch, q, err, hd, hc, he, hq, hqs, hb, hcs, h⟩ |
    ⟨conn, ch, q, dl, hd, hc, he, hq, hqs, hb, hcs, h⟩
  all_goals try (exfalso; simp_all [AllSucceed, errOf]; done)
  rw [h]
  by_cases hpre : config.Prefetch > 0 <;>
  simp only [traceChannel, traceQueueDeclare, traceQos, traceConsume, hpre, if_true, if_false,
    List.cons_append, List.nil_append, List.append_nil, List.map_cons, List.map_nil,
    Action.step] <;>
  decide

/-! ## Auxiliary facts about the loops of `pool.go` -/

/-- The loop of `ConsumerPool.Shutdown` visits the consumers in order, with their indices,
and records what each `Shutdown` did. -/
theorem Shutdown_loop_consumers (env : Nat → ShutdownOutcomes) (consumers : List Consumer) :
    ∀ n, (ConsumerPool.Shutdown.loop env n consumers).map (fun call => call.consumer) =
        consumers ∧
      (ConsumerPool.Shutdown.loop env n consumers).map (fun call => call.n) =
        (List.range consumers.length).map (fun j => n + j) ∧
      ∀ call ∈ ConsumerPool.Shutdown.loop env n consumers,
        (call.trace, call.err) = call.consumer.Shutdown (env call.n) := by
  induction consumers with
  | nil => intro n; simp [ConsumerPool.Shutdown.loop]
  | cons c rest ih =>
    intro n
    obtain ⟨h1, h2, h3⟩ := ih (n + 1)
    refine ⟨?_, ?_, ?_⟩
    · simp [ConsumerPool.Shutdown.loop, h1]
    · simp only [ConsumerPool.Shutdown.loop, List.map_cons, h2, List.length_cons,
        List.range_succ_eq_map, List.map_map]
      simp [Function.comp_def, Nat.add_assoc, Nat.add_comm 1]
    · intro call hcall
      simp only [ConsumerPool.Shutdown.loop, List.mem_cons] at hcall
      rcases hcall with rfl | hmem
      · rfl
      · exact h3 call hmem

/-- Every `Shutdown` issues exactly one cancel, for the tag of its consumer. -/
theorem Shutdown_cancel_once (c : Consumer) (o : ShutdownOutcomes) :
    (c.Shutdown o).1.filter (fun a => a.step = Step.cancel) =
      [Action.cancel c.channel c.tag true] := by
  obtain ⟨cancel, close, done⟩ := o
  cases cancel <;> cases close <;>
  simp [Consumer.Shutdown, Action.step]

/-- The cancels of the loop of `ConsumerPool.Shutdown` are those of its consumers, in order. -/
theorem Shutdown_loop_cancels (env : Nat → ShutdownOutcomes) (consumers : List Consumer) :
    ∀ n, ((ConsumerPool.Shutdown.loop env n consumers).flatMap (fun call => call.trace)).filter
        (fun a => a.step = Step.cancel) =
      consumers.map (fun c => Action.cancel c.channel c.tag true) := by
  induction consumers with
  | nil => intro n; simp [ConsumerPool.Shutdown.loop]
  | cons c rest ih =>
    intro n
    simp only [ConsumerPool.Shutdown.loop, List.flatMap_cons, List.filter_append, List.map_cons,
      ih (n + 1), Shutdown_cancel_once]
    rfl

/-- The loop of `NewConsumerPool` when the next `n` creations succeed. -/
theorem NewConsumerPool_loop_success (sprintf : String → Int → String) (pre : String)
    (config : Config) (msgHandler : MsgHander) (env : Nat → Outcomes) :
    ∀ (n i : Nat) (consumers : List Consumer) (trace : List Action),
      (∀ j, j < n →
        (NewConsumer config (consumerTag sprintf pre (i + j)) msgHandler (env (i + j))).2.2
          = none) →
      ∃ created : List Consumer,
        NewConsumerPool.loop sprintf pre config msgHandler env n i consumers trace =
          (trace ++ (List.range n).flatMap (fun j =>
              (NewConsumer config (consumerTag sprintf pre (i + j)) msgHandler (env (i + j))).1),
            some { consumers := consumers ++ created }, none) ∧
        created.map (fun c => c.tag) =
          (List.range n).map (fun j => consumerTag sprintf pre (i + j)) := by
  intro n
  induction n with
  | zero => intro i consumers trace _; exact ⟨[], by simp [NewConsumerPool.loop]⟩
  | succ n ih =>
    intro i consumers trace hok
    have h0 := hok 0 (Nat.succ_pos n)
    rw [Nat.add_zero] at h0
    obtain ⟨c, hc, htag⟩ := (NewConsumer_some_or_error config _ msgHandler (env i)).1 h0
    rcases hres : NewConsumer config (consumerTag sprintf pre i) msgHandler (env i) with
      ⟨t, c0, e⟩
    rw [hres] at hc
    simp only [Prod.mk.injEq] at hc
    obtain ⟨rfl, rfl⟩ := hc
    obtain ⟨created, hloop, htags⟩ := ih (i + 1) (consumers ++ [c]) (trace ++ t)
      (fun j hj => by
        have := hok (j + 1) (Nat.succ_lt_succ hj)
        rwa [show i + (j + 1) = i + 1 + j by omega] at this)
    refine ⟨c :: created, ?_, ?_⟩
    · rw [NewConsumerPool.loop, hres]
      simp only []
      rw [hloop]
      simp [List.range_succ_eq_map, List.flatMap_cons, Function.comp_def, Nat.add_assoc,
        Nat.add_comm 1, List.flatMap_map, hres]
    · simp [List.range_succ_eq_map, htags, htag, Function.comp_def, Nat.add_assoc,
        Nat.add_comm 1]

/-- The loop of `NewConsumerPool` when the creation `k` iterations ahead is the first to fail. -/
theorem NewConsumerPool_loop_failure (sprintf : String → Int → String) (pre : String)
    (config : Config) (msgHandler : MsgHander) (env : Nat → Outcomes) (err : Error) :
    ∀ (k n i : Nat) (consumers : List Consumer) (trace : List Action), k < n →
      (∀ j, j < k →
        (NewConsumer config (consumerTag sprintf pre (i + j)) msgHandler (env (i + j))).2.2
          = none) →
      (NewConsumer config (consumerTag sprintf pre (i + k)) msgHandler (env (i + k))).2.2
          = some err →
      NewConsumerPool.loop sprintf pre config msgHandler env n i consumers trace =
        (trace ++ (List.range (k + 1)).flatMap (fun j =>
            (NewConsumer config (consumerTag sprintf pre (i + j)) msgHandler (env (i + j))).1),
          none, some err) := by
  intro k
  induction k with
  | zero =>
    intro n i consumers trace hk _ hfail
    obtain ⟨m, rfl⟩ : ∃ m, n = m + 1 := ⟨n - 1, by omega⟩
    rw [Nat.add_zero] at hfail
    rcases hres : NewConsumer config (consumerTag sprintf pre i) msgHandler (env i) with
      ⟨t, c0, e⟩
    rw [hres] at hfail
    simp only at hfail
    subst hfail
    rw [NewConsumerPool.loop, hres]
    simp [hres, List.range_succ_eq_map]
  | succ k ih =>
    intro n i consumers trace hk hok hfail
    obtain ⟨m, rfl⟩ : ∃ m, n = m + 1 := ⟨n - 1, by omega⟩
    have h0 := hok 0 (Nat.succ_pos k)
    rw [Nat.add_zero] at h0
    obtain ⟨c, hc, _⟩ := (NewConsumer_some_or_error config _ msgHandler (env i)).1 h0
    rcases hres : NewConsumer config (consumerTag sprintf pre i) msgHandler (env i) with
      ⟨t, c0, e⟩
    rw [hres] at hc
    simp only [Prod.mk.injEq] at hc
    obtain ⟨rfl, rfl⟩ := hc
    have hrec := ih m (i + 1) (consumers ++ [c]) (trace ++ t) (by omega)
      (fun j hj => by
        have := hok (j + 1) (Nat.succ_lt_succ hj)
        rwa [show i + (j + 1) = i + 1 + j by omega] at this)
      (by rwa [show i + 1 + k = i + (k + 1) by omega])
    rw [NewConsumerPool.loop, hres]
    simp only []
    rw [hrec]
    simp [List.range_succ_eq_map (k + 1), List.flatMap_cons, Function.comp_def, Nat.add_assoc,
      Nat.add_comm 1, List.flatMap_map, hres]

/-- The trace of `j` consecutive `NewConsumer` calls holds `j` dials. -/
theorem dial_count_flatMap (f : Nat → List Action)
    (hf : ∀ i, ((f i).map Action.step).count Step.dial = 1) :
    ∀ l : List Nat, ((l.flatMap f).map Action.step).count Step.dial = l.length := by
  intro l
  induction l with
  | nil => simp
  | cons i l ih => simp [List.flatMap_cons, List.count_append, hf i, ih, Nat.add_comm]

/-! ## Auxiliary facts about the `fmt` fragment and decimal rendering -/

/-- Text without a percent sign is copied. -/
theorem Sprintf_scan_literal (a : Int) (rest : List Char) (used : Bool) :
    ∀ p : List Char, '%' ∉ p →
      Sprintf.scan a (p ++ rest) used = (Sprintf.scan a rest used).map (fun out => p ++ out) := by
  intro p
  induction p with
  | nil => intro _; simp
  | cons c p ih =>
    intro hp
    have hc : c ≠ '%' := fun h => hp (by simp [h])
    have hp' : '%' ∉ p := fun h => hp (List.mem_cons_of_mem _ h)
    rw [List.cons_append, Sprintf.scan.eq_def]
    simp only [hc, ne_eq, not_false_eq_true, if_true, ih hp']
    cases Sprintf.scan a rest used <;> simp

/-- The constant part of the tag format renders the operand in decimal. -/
theorem Sprintf_scan_suffix (a : Int) :
    Sprintf.scan a "-consumer0%d".data false =
      some ("-consumer0".data ++ (toString a).data) := by
  show Sprintf.scan a ['-', 'c', 'o', 'n', 's', 'u', 'm', 'e', 'r', '0', '%', 'd'] false = _
  simp [Sprintf.scan]

/-- With a percent-free first part, the tag format yields that part, `-consumer0` and
the operand in decimal. -/
theorem Sprintf_literal (pre : String) (a : Int) (hpre : '%' ∉ pre.data) :
    Sprintf (pre ++ "-consumer0%d") a = some (pre ++ "-consumer0" ++ toString a) := by
  unfold Sprintf
  rw [String.data_append, Sprintf_scan_literal a _ false pre.data hpre, Sprintf_scan_suffix]
  simp [String.ext_iff]

/-- The tag of index `i` for a percent-free name. -/
theorem consumerTag_literal (sprintf : String → Int → String) (hfmt : FormatsLikeGo sprintf)
    (pre : String) (hpre : '%' ∉ pre.data) (i : Nat) :
    consumerTag sprintf pre i = pre ++ "-consumer0" ++ toString i := by
  have := hfmt _ _ _ (Sprintf_literal pre (i : Int) hpre)
  simpa [consumerTag] using this

/-- The total formatter agrees with the fragment. -/
theorem sprintfTotal_like_go : FormatsLikeGo sprintfTotal := by
  intro format a out h
  simp [sprintfTotal, h]

/-- The character of a decimal digit has the value of the digit. -/
theorem digitChar_value (m : Nat) (hm : m < 10) : (Nat.digitChar m).toNat - 48 = m := by
  interval_cases m <;> rfl

/-- The digits `Nat.toDigitsCore` puts in front have the value of the number. -/
theorem toDigitsCore_value :
    ∀ (fuel n : Nat) (ds : List Char), n < fuel →
      ∃ front, Nat.toDigitsCore 10 fuel n ds = front ++ ds ∧ decimalValue front = n := by
  intro fuel
  induction fuel with
  | zero => intro n ds h; omega
  | succ fuel ih =>
    intro n ds hn
    rw [Nat.toDigitsCore]
    by_cases h0 : n / 10 = 0
    · refine ⟨[Nat.digitChar (n % 10)], by simp [h0], ?_⟩
      have hlt : n < 10 := by omega
      simpa [decimalValue, Nat.mod_eq_of_lt hlt] using digitChar_value n hlt
    · obtain ⟨front, hfront, hval⟩ := ih (n / 10) (Nat.digitChar (n % 10) :: ds) (by omega)
      refine ⟨front ++ [Nat.digitChar (n % 10)], by simp [h0, hfront], ?_⟩
      unfold decimalValue at hval ⊢
      rw [List.foldl_append, hval]
      simp [digitChar_value (n % 10) (Nat.mod_lt _ (by decide))]
      omega

/-- Reading back the decimal rendering of a number gives the number. -/
theorem decimalValue_repr (n : Nat) : decimalValue (toString n).data = n := by
  obtain ⟨front, hfront, hval⟩ := toDigitsCore_value (n + 1) n [] (Nat.lt_succ_self n)
  have : (toString n).data = front := by
    show (Nat.repr n).data = front
    simp [Nat.repr, Nat.toDigits, hfront, List.asString]
  rw [this, hval]

/-- For a percent-free name the tags of different indices differ. -/
theorem consumerTag_injective (sprintf : String → Int → String) (hfmt : FormatsLikeGo sprintf)
    (pre : String) (hpre : '%' ∉ pre.data) (i j : Nat)
    (h : consumerTag sprintf pre i = consumerTag sprintf pre j) : i = j := by
  rw [consumerTag_literal sprintf hfmt pre hpre, consumerTag_literal sprintf hfmt pre hpre] at h
  have hdata := congrArg String.data h
  simp only [String.data_append, List.append_cancel_left_eq] at hdata
  have := congrArg decimalValue hdata
  rwa [decimalValue_repr, decimalValue_repr] at this

/-! ## Claims -/

/-- C1: `NewConsumerPool` uses the caller's name as part of the format string, so a name
holding a format verb does not appear in the tag as written.  For the name `%d`, a
request for one consumer whose creation succeeds returns a pool of one consumer whose
tag is `0-consumer0%!d(MISSING)`, which differs from the name followed by `-consumer0`
and the decimal index, `%d-consumer00`. -/
theorem NewConsumerPool_tag_of_verb_name (sprintf : String → Int → String)
    (hfmt : FormatsLikeGo sprintf) :
    (NewConsumerPool sprintf 1 "%d" sampleConfig sampleHandler (fun _ => okOutcomes)).2 =
      (some { consumers := [sampleConsumer "0-consumer0%!d(MISSING)"] }, none) ∧
    "0-consumer0%!d(MISSING)" ≠ "%d" ++ "-consumer0" ++ toString (0 : Nat) := by
  have htag : consumerTag sprintf "%d" 0 = "0-consumer0%!d(MISSING)" :=
    hfmt _ _ _ (by decide)
  refine ⟨?_, by decide⟩
  simp only [NewConsumerPool, Int.toNat_one, NewConsumerPool.loop, htag]
  rfl

/-- C1, at the total formatter. -/
theorem NewConsumerPool_tag_of_verb_name_witness :
    FormatsLikeGo sprintfTotal ∧
    (NewConsumerPool sprintfTotal 1 "%d" sampleConfig sampleHandler (fun _ => okOutcomes)).2 =
      (some { consumers := [sampleConsumer "0-consumer0%!d(MISSING)"] }, none) ∧
    "0-consumer0%!d(MISSING)" ≠ "%d" ++ "-consumer0" ++ toString (0 : Nat) :=
  ⟨sprintfTotal_like_go, NewConsumerPool_tag_of_verb_name sprintfTotal sprintfTotal_like_go⟩

/-- For a name without a percent sign, when every creation succeeds `NewConsumerPool`
returns no error and a pool of `numWorkers` consumers, in creation order, whose tags are
the name followed by `-consumer0` and the decimal index. -/
theorem NewConsumerPool_tags_of_literal_name (sprintf : String → Int → String)
    (hfmt : FormatsLikeGo sprintf) (numWorkers : Int) (pre : String)
    (hpre : '%' ∉ pre.data) (config : Config) (msgHandler : MsgHander) (env : Nat → Outcomes)
    (hok : ∀ i : Nat, (i : Int) < numWorkers →
      (NewConsumer config (consumerTag sprintf pre i) msgHandler (env i)).2.2 = none) :
    ∃ pool, (NewConsumerPool sprintf numWorkers pre config msgHandler env).2 =
        (some pool, none) ∧
      pool.consumers.length = numWorkers.toNat ∧
      pool.consumers.map (fun c => c.tag) =
        (List.range numWorkers.toNat).map (fun i => pre ++ "-consumer0" ++ toString i) := by
  obtain ⟨created, hloop, htags⟩ := NewConsumerPool_loop_success sprintf pre config msgHandler
    env numWorkers.toNat 0 [] [] (fun j hj => by
      rw [Nat.zero_add]
      exact hok j (by omega))
  refine ⟨{ consumers := created }, ?_, ?_, ?_⟩
  · simp [NewConsumerPool, hloop]
  · have := congrArg List.length htags
    simpa using this
  · simp only [htags, Nat.zero_add]
    exact List.map_congr_left (fun i _ => consumerTag_literal sprintf hfmt pre hpre i)

/-- C2: the tags of a pool are not always pairwise distinct.  For the name `%T` the
format verb consumes the index and renders its type, so the tags of index 0 and of
index 1 are the same string, `int-consumer0%!d(MISSING)`. -/
theorem consumerTag_collision (sprintf : String → Int → String)
    (hfmt : FormatsLikeGo sprintf) :
    consumerTag sprintf "%T" 0 = "int-consumer0%!d(MISSING)" ∧
    consumerTag sprintf "%T" 1 = "int-consumer0%!d(MISSING)" ∧
    (NewConsumerPool sprintf 2 "%T" sampleConfig sampleHandler (fun _ => okOutcomes)).2 =
      (some { consumers := [sampleConsumer "int-consumer0%!d(MISSING)",
                            sampleConsumer "int-consumer0%!d(MISSING)"] }, none) := by
  have h0 : consumerTag sprintf "%T" 0 = "int-consumer0%!d(MISSING)" :=
    hfmt _ _ _ (by decide)
  have h1 : consumerTag sprintf "%T" 1 = "int-consumer0%!d(MISSING)" :=
    hfmt _ _ _ (by decide)
  refine ⟨h0, h1, ?_⟩
  have h2 : (2 : Int).toNat = 2 := rfl
  simp only [NewConsumerPool, h2, NewConsumerPool.loop, h0, h1]
  rfl

/-- C2, at the total formatter. -/
theorem consumerTag_collision_witness :
    FormatsLikeGo sprintfTotal ∧
    consumerTag sprintfTotal "%T" 0 = "int-consumer0%!d(MISSING)" ∧
    consumerTag sprintfTotal "%T" 1 = "int-consumer0%!d(MISSING)" ∧
    (NewConsumerPool sprintfTotal 2 "%T" sampleConfig sampleHandler (fun _ => okOutcomes)).2 =
      (some { consumers := [sampleConsumer "int-consumer0%!d(MISSING)",
                            sampleConsumer "int-consumer0%!d(MISSING)"] }, none) :=
  ⟨sprintfTotal_like_go, consumerTag_collision sprintfTotal sprintfTotal_like_go⟩

/-- C6: when `NewConsumer` succeeds for the indices below `k` and fails for index
`k < numWorkers`, `NewConsumerPool` returns a nil pool with exactly the error of that
call; its trace is the traces of the calls for the indices `0..k` and nothing else, so
it holds `k + 1` dials, no call for a later index and no cancel, connection close or
receive on a completion signal. -/
theorem NewConsumerPool_first_failure (sprintf : String → Int → String) (numWorkers : Int)
    (pre : String) (config : Config) (msgHandler : MsgHander) (env : Nat → Outcomes)
    (k : Nat) (err : Error) (hk : (k : Int) < numWorkers)
    (hok : ∀ i, i < k →
      (NewConsumer config (consumerTag sprintf pre i) msgHandler (env i)).2.2 = none)
    (hfail :
      (NewConsumer config (consumerTag sprintf pre k) msgHandler (env k)).2.2 = some err) :
    NewConsumerPool sprintf numWorkers pre config msgHandler env =
      ((List.range (k + 1)).flatMap (fun i =>
          (NewConsumer config (consumerTag sprintf pre i) msgHandler (env i)).1),
        none, some err) ∧
    ((NewConsumerPool sprintf numWorkers pre config msgHandler env).1.map Action.step).count
      Step.dial = k + 1 ∧
    ∀ a ∈ (NewConsumerPool sprintf numWorkers pre config msgHandler env).1,
      a.step ≠ Step.cancel ∧ a.step ≠ Step.close ∧ a.step ≠ Step.recv := by
  have hloop := NewConsumerPool_loop_failure sprintf pre config msgHandler env err k
    numWorkers.toNat 0 [] [] (by omega)
    (fun j hj => by rw [Nat.zero_add]; exact hok j hj)
    (by rw [Nat.zero_add]; exact hfail)
  simp only [Nat.zero_add, List.nil_append] at hloop
  have heq : NewConsumerPool sprintf numWorkers pre config msgHandler env =
      ((List.range (k + 1)).flatMap (fun i =>
          (NewConsumer config (consumerTag sprintf pre i) msgHandler (env i)).1),
        none, some err) := hloop
  refine ⟨heq, ?_, ?_⟩
  · rw [heq]
    have := dial_count_flatMap
      (fun i => (NewConsumer config (consumerTag sprintf pre i) msgHandler (env i)).1)
      (fun i => (NewConsumer_some_or_error config _ msgHandler (env i)).2.2.2)
      (List.range (k + 1))
    simpa using this
  · intro a ha
    rw [heq] at ha
    obtain ⟨i, _, hi⟩ := List.mem_flatMap.1 ha
    exact (NewConsumer_some_or_error config _ msgHandler (env i)).2.2.1 a hi

/-- C6, for a request of three consumers named `worker` where the dial of index 2 fails. -/
theorem NewConsumerPool_first_failure_witness :
    (NewConsumerPool sprintfTotal 3 "worker" sampleConfig sampleHandler failAtTwo).2 =
      (none, some "Dial: connection refused") ∧
    ((NewConsumerPool sprintfTotal 3 "worker" sampleConfig sampleHandler failAtTwo).1.map
      Action.step).count Step.dial = 3 ∧
    ∀ a ∈ (NewConsumerPool sprintfTotal 3 "worker" sampleConfig sampleHandler failAtTwo).1,
      a.step ≠ Step.cancel ∧ a.step ≠ Step.close ∧ a.step ≠ Step.recv := by
  have h := NewConsumerPool_first_failure sprintfTotal 3 "worker" sampleConfig sampleHandler
    failAtTwo 2 "Dial: connection refused" (by decide)
    (by intro i hi; interval_cases i <;> rfl) rfl
  exact ⟨by rw [h.1], h.2.1, h.2.2⟩

/-- C3: `NewConsumer` returns a consumer carrying the given tag and a nil error exactly
when dial, channel open, exchange declare, queue declare, the QoS call (when made), bind
and consume all succeed; otherwise it returns a nil consumer and the error whose text is
the label of the first failing step followed by the text of the underlying error.  It
never returns a consumer together with an error. -/
theorem NewConsumer_result (config : Config) (ctag : String) (msgHandler : MsgHander)
    (o : Outcomes) :
    (AllSucceed config o ↔
      ∃ c, (NewConsumer config ctag msgHandler o).2 = (some c, none) ∧ c.tag = ctag) ∧
    (¬ AllSucceed config o ↔
      ∃ msg, firstFailure config o = some msg ∧
        (NewConsumer config ctag msgHandler o).2 = (none, some msg)) ∧
    ¬ ((NewConsumer config ctag msgHandler o).2.1.isSome ∧
       (NewConsumer config ctag msgHandler o).2.2.isSome) := by
  rcases NewConsumer_paths config ctag msgHandler o with
    ⟨err, hd, h⟩ | ⟨conn, err, hd, hc, h⟩ | ⟨conn, ch, err, hd, hc, he, h⟩ |
    ⟨conn, ch, err, hd, hc, he, hq, h⟩ | ⟨conn, ch, q, err, hd, hc, he, hq, hp, hqs, h⟩ |
    ⟨conn, ch, q, err, hd, hc, he, hq, hqs, hb, h⟩ |
    ⟨conn, ch, q, err, hd, hc, he, hq, hqs, hb, hcs, h⟩ |
    ⟨conn, ch, q, dl, hd, hc, he, hq, hqs, hb, hcs, h⟩ <;>
  by_cases hpre : config.Prefetch > 0 <;>
  simp_all [AllSucceed, firstFailure, stepErrors, errOf]

/-- C4: `Consumer.Shutdown` performs cancel, connection close and the receive on the
completion signal in that order (its trace is an initial part of that sequence).  When
cancel and close succeed it performs all three and returns the value received; when
cancel fails it returns that error, wrapped, after the cancel alone; when close fails it
returns that error, wrapped, after cancel and close.  The signal is received once when
both succeed and not at all otherwise. -/
theorem Consumer_Shutdown_order (c : Consumer) (o : ShutdownOutcomes) :
    (c.Shutdown o).1 <+:
      [Action.cancel c.channel c.tag true, Action.connClose c.conn, Action.recvDone c.done] ∧
    (o.Cancel = none → o.Close = none →
      c.Shutdown o =
        ([Action.cancel c.channel c.tag true, Action.connClose c.conn, Action.recvDone c.done],
          o.done)) ∧
    (∀ err, o.Cancel = some err →
      c.Shutdown o =
        ([Action.cancel c.channel c.tag true], some ("Consumer cancel failed: " ++ err))) ∧
    (∀ err, o.Cancel = none → o.Close = some err →
      c.Shutdown o =
        ([Action.cancel c.channel c.tag true, Action.connClose c.conn],
          some ("AMQP connection close error: " ++ err))) ∧
    ((c.Shutdown o).1.map Action.step).count Step.recv =
      (if o.Cancel = none ∧ o.Close = none then 1 else 0) := by
  obtain ⟨cancel, close, done⟩ := o
  cases cancel <;> cases close <;>
  simp [Consumer.Shutdown, Action.step, List.IsPrefix]

/-- C5: whatever the individual `Shutdown` calls return, `ConsumerPool.Shutdown` calls
`Shutdown` once on every consumer of the pool, in creation order and with the indices
`0, 1, ...`, so the number of calls is the size of the pool; each call is the `Shutdown`
of its consumer, and the cancels issued are those of the consumers, in order. -/
theorem ConsumerPool_Shutdown_all (pool : ConsumerPool) (env : Nat → ShutdownOutcomes) :
    (ConsumerPool.Shutdown.calls pool env).map (fun call => call.consumer) = pool.consumers ∧
    (ConsumerPool.Shutdown.calls pool env).map (fun call => call.n) =
      List.range pool.consumers.length ∧
    (ConsumerPool.Shutdown.calls pool env).length = pool.consumers.length ∧
    (∀ call ∈ ConsumerPool.Shutdown.calls pool env,
      (call.trace, call.err) = call.consumer.Shutdown (env call.n)) ∧
    (pool.Shutdown env).filter (fun a => a.step = Step.cancel) =
      pool.consumers.map (fun c => Action.cancel c.channel c.tag true) := by
  obtain ⟨h1, h2, h3⟩ := Shutdown_loop_consumers env pool.consumers 0
  refine ⟨h1, ?_, ?_, h3, Shutdown_loop_cancels env pool.consumers 0⟩
  · simpa [ConsumerPool.Shutdown.calls] using h2
  · have := congrArg List.length h1
    simpa [ConsumerPool.Shutdown.calls] using this

/-- C7: the queue declaration is made exactly when dial, channel open and exchange
declare succeed, once, and its argument table is `x-message-ttl = config.MessageTTL`
when `config.MessageTTL > 0` and the empty table otherwise: the key is present iff
`config.MessageTTL > 0`, and then bound to `config.MessageTTL`. -/
theorem NewConsumer_queueDeclare_ttl (config : Config) (ctag : String) (msgHandler : MsgHander)
    (o : Outcomes) :
    queueDeclareArgs (NewConsumer config ctag msgHandler o).1 =
      (if errOf o.Dial = none ∧ errOf o.Channel = none ∧ o.ExchangeDeclare = none then
        [if config.MessageTTL > 0 then [("x-message-ttl", config.MessageTTL)] else []]
      else []) ∧
    ∀ args ∈ queueDeclareArgs (NewConsumer config ctag msgHandler o).1,
      ((args.get? "x-message-ttl").isSome ↔ config.MessageTTL > 0) ∧
      (config.MessageTTL > 0 → args.get? "x-message-ttl" = some config.MessageTTL) ∧
      (¬ config.MessageTTL > 0 → args = []) := by
  rcases NewConsumer_paths config ctag msgHandler o with
    ⟨err, hd, h⟩ | ⟨conn, err, hd, hc, h⟩ | ⟨conn, ch, err, hd, hc, he, h⟩ |
    ⟨conn, ch, err, hd, hc, he, hq, h⟩ | ⟨conn, ch, q, err, hd, hc, he, hq, hp, hqs, h⟩ |
    ⟨conn, ch, q, err, hd, hc, he, hq, hqs, hb, h⟩ |
    ⟨conn, ch, q, err, hd, hc, he, hq, hqs, hb, hcs, h⟩ |
    ⟨conn, ch, q, dl, hd, hc, he, hq, hqs, hb, hcs, h⟩ <;>
  by_cases hpre : config.Prefetch > 0 <;> by_cases httl : config.MessageTTL > 0 <;>
  simp [*, queueDeclareArgs, errOf, traceChannel, traceQueueDeclare,
    traceQos, traceConsume, List.dropLast, Table.get?, List.lookup]

/-- C8: when dial, channel open, exchange declare and queue declare succeed, the QoS calls
of `NewConsumer` are the single call with prefetch count `config.Prefetch`, prefetch size
0 and global false when `config.Prefetch > 0`, and none otherwise. -/
theorem NewConsumer_qos (config : Config) (ctag : String) (msgHandler : MsgHander)
    (o : Outcomes) (conn : Connection) (channel : Channel) (queue : Queue)
    (hdial : o.Dial = .ok conn) (hchan : o.Channel = .ok channel)
    (hex : o.ExchangeDeclare = none) (hqueue : o.QueueDeclare = .ok queue) :
    qosCalls (NewConsumer config ctag msgHandler o).1 =
      (if config.Prefetch > 0 then [(config.Prefetch, 0, false)] else []) := by
  rcases NewConsumer_paths config ctag msgHandler o with
    ⟨err, hd, h⟩ | ⟨conn, err, hd, hc, h⟩ | ⟨conn, ch, err, hd, hc, he, h⟩ |
    ⟨conn, ch, err, hd, hc, he, hq, h⟩ | ⟨conn, ch, q, err, hd, hc, he, hq, hp, hqs, h⟩ |
    ⟨conn, ch, q, err, hd, hc, he, hq, hqs, hb, h⟩ |
    ⟨conn, ch, q, err, hd, hc, he, hq, hqs, hb, hcs, h⟩ |
    ⟨conn, ch, q, dl, hd, hc, he, hq, hqs, hb, hcs, h⟩ <;>
  by_cases hpre : config.Prefetch > 0 <;>
  simp_all [qosCalls, traceChannel, traceQueueDeclare, traceQos, traceConsume, List.dropLast]

/-- C8, for a configuration with prefetch 10 and one without prefetch. -/
theorem NewConsumer_qos_witness :
    qosCalls (NewConsumer sampleConfig "t" sampleHandler okOutcomes).1 = [(10, 0, false)] ∧
    qosCalls (NewConsumer ttlConfig "t" sampleHandler okOutcomes).1 = [] :=
  ⟨NewConsumer_qos sampleConfig "t" sampleHandler okOutcomes ⟨1⟩ ⟨2⟩
      { Name := "q", Messages := 0, Consumers := 0 } rfl rfl rfl rfl,
   NewConsumer_qos ttlConfig "t" sampleHandler okOutcomes ⟨1⟩ ⟨2⟩
      { Name := "q", Messages := 0, Consumers := 0 } rfl rfl rfl rfl⟩

/-- C9: every exchange declaration, queue declaration, bind and consume call of
`NewConsumer` carries the specified arguments (`ArgsAsSpecified`): the exchange is
declared with the configured name and type, durable, not auto-deleted, not internal,
without noWait; the queue with the configured name and durability, not auto-deleted, not
exclusive; the bind names the queue the declaration returned, the configured key and
exchange and the table `x-expires = 30000`; the consume names the returned queue and the
tag, with auto-ack, exclusive and noLocal off.  When every step succeeds each of the four
calls is made exactly once. -/
theorem NewConsumer_call_arguments (config : Config) (ctag : String) (msgHandler : MsgHander)
    (o : Outcomes) :
    (∀ a ∈ (NewConsumer config ctag msgHandler o).1, ArgsAsSpecified config ctag o a) ∧
    (AllSucceed config o →
      ((NewConsumer config ctag msgHandler o).1.map Action.step).count Step.exchangeDeclare = 1 ∧
      ((NewConsumer config ctag msgHandler o).1.map Action.step).count Step.queueDeclare = 1 ∧
      ((NewConsumer config ctag msgHandler o).1.map Action.step).count Step.bind = 1 ∧
      ((NewConsumer config ctag msgHandler o).1.map Action.step).count Step.consume = 1) :=
  ⟨NewConsumer_args_aux config ctag msgHandler o,
   NewConsumer_count_aux config ctag msgHandler o⟩

/-- C10, as stated, fails: when every call succeeds the actions of `NewConsumer` are dial,
launch watcher, open channel, declare exchange, declare queue, set QoS, bind, start
consuming, launch handler, which is not an initial part of the eight-step sequence that
has no watcher launch. -/
theorem NewConsumer_steps_not_eight_step_plan :
    performedSteps (NewConsumer sampleConfig "t" sampleHandler okOutcomes).1 =
      [Step.dial, Step.watcher, Step.channel, Step.exchangeDeclare, Step.queueDeclare,
       Step.qos, Step.bind, Step.consume, Step.handler] ∧
    ¬ (performedSteps (NewConsumer sampleConfig "t" sampleHandler okOutcomes).1 <+:
        setupPlan sampleConfig) := by
  decide

/-- C10, amended: the actions `NewConsumer` performs, all of them and in order, are an
initial part of the plan dial, launch close watcher, open channel, declare exchange,
declare queue, set QoS (only when `config.Prefetch > 0`), bind, start consuming, launch
handler.  A performed step that fails is the last action performed, and an error is
returned exactly when the last action performed is a failing step; when every step
succeeds the whole plan is performed and the handler is launched once, otherwise an error
is returned and the handler is not launched; no action of `NewConsumer` closes the
connection. -/
theorem NewConsumer_setup_sequence (config : Config) (ctag : String) (msgHandler : MsgHander)
    (o : Outcomes) :
    performedSteps (NewConsumer config ctag msgHandler o).1 <+: setupPlanWithWatcher config ∧
    (∀ s ∈ performedSteps (NewConsumer config ctag msgHandler o).1, o.fails s = true →
      (performedSteps (NewConsumer config ctag msgHandler o).1).getLast? = some s) ∧
    ((NewConsumer config ctag msgHandler o).2.2.isSome ↔
      ∃ s, (performedSteps (NewConsumer config ctag msgHandler o).1).getLast? = some s ∧
        o.fails s = true) ∧
    (AllSucceed config o →
      performedSteps (NewConsumer config ctag msgHandler o).1 = setupPlanWithWatcher config ∧
      (performedSteps (NewConsumer config ctag msgHandler o).1).count Step.handler = 1) ∧
    (¬ AllSucceed config o →
      (NewConsumer config ctag msgHandler o).2.2.isSome ∧
      (performedSteps (NewConsumer config ctag msgHandler o).1).count Step.handler = 0) ∧
    (∀ a ∈ (NewConsumer config ctag msgHandler o).1, a.step ≠ Step.close) := by
  rcases NewConsumer_paths config ctag msgHandler o with
    ⟨err, hd, h⟩ | ⟨conn, err, hd, hc, h⟩ | ⟨conn, ch, err, hd, hc, he, h⟩ |
    ⟨conn, ch, err, hd, hc, he, hq, h⟩ | ⟨conn, ch, q, err, hd, hc, he, hq, hp, hqs, h⟩ |
    ⟨conn, ch, q, err, hd, hc, he, hq, hqs, hb, h⟩ |
    ⟨conn, ch, q, err, hd, hc, he, hq, hqs, hb, hcs, h⟩ |
    ⟨conn, ch, q, dl, hd, hc, he, hq, hqs, hb, hcs, h⟩ <;>
  rw [h] <;>
  by_cases hpre : config.Prefetch > 0 <;>
  simp only [traceChannel, traceQueueDeclare, traceQos, traceConsume, hpre, if_true, if_false,
    List.cons_append, List.nil_append, List.append_nil, List.dropLast, performedSteps,
    setupPlanWithWatcher, List.map_cons, List.map_nil, Action.step, List.forall_mem_cons] <;>
  simp [Outcomes.fails, AllSucceed, errOf, *]
  all_goals contradiction

end Punter
